import Mathlib

/-!
Verification of `update_notes_index.py` (stock_mindmap repository).

The Python script is shallowly embedded: strings are Lean `String`s
(sequences of Unicode code points, as in Python), the filesystem under
`notes/` is an explicit value of type `Fs`, fallible I/O is `Except Unit`,
and Python's stateful loops become explicit recursion.  Modelling notes:

* Python whitespace / `str.lower()` / path handling are modelled for the
  ASCII range (all characters the claims exercise); `str.splitlines`
  is modelled for the code points Python splits on.
* `yaml.safe_load` is an external library call; its outcome (unavailable
  import, parse exception, or a parsed document) is an explicit
  `ParseOutcome` parameter, and the parsed document is a `Yaml` value
  with string keys (the shape mkdocs.yml configurations take).
* Directory names are treated as literal first path segments; path
  aliasing through "", "." or ".." components is outside the model.
-/

/-- Python whitespace (`str.strip` default set and `re` `\s`), ASCII range. -/
def pyWsChar (c : Char) : Bool :=
  c = ' ' || c = '\t' || c = '\n' || c = '\r' || c = '\x0b' || c = '\x0c'

/-- Code points `str.splitlines` treats as line boundaries. -/
def pyLineBreak (c : Char) : Bool :=
  c = '\n' || c = '\r' || c = '\x0b' || c = '\x0c' ||
  c = '\x1c' || c = '\x1d' || c = '\x1e' || c = '\u0085' ||
  c = '\u2028' || c = '\u2029'

/-- Worker for `pySplitlines`; `cur` holds the current line reversed. -/
def pySplitlinesAux (cur : List Char) : List Char → List String
  | [] => if cur = [] then [] else [⟨cur.reverse⟩]
  | '\r' :: '\n' :: rest => ⟨cur.reverse⟩ :: pySplitlinesAux [] rest
  | c :: rest =>
    if pyLineBreak c then ⟨cur.reverse⟩ :: pySplitlinesAux [] rest
    else pySplitlinesAux (c :: cur) rest

/-- Models Python `str.splitlines()` (no trailing empty line). -/
def pySplitlines (s : String) : List String :=
  pySplitlinesAux [] s.data

/-- Models Python `str.rstrip()`. -/
def pyRstrip (s : String) : String :=
  ⟨(s.data.reverse.dropWhile pyWsChar).reverse⟩

/-- Models Python `str.lstrip()`. -/
def pyLstrip (s : String) : String :=
  ⟨s.data.dropWhile pyWsChar⟩

/-- Models Python `str.strip()`. -/
def pyStrip (s : String) : String :=
  pyLstrip (pyRstrip s)

/-- Models Python `str.lstrip("# ")`. -/
def pyLstripHashSpace (s : String) : String :=
  ⟨s.data.dropWhile (fun c => c = '#' || c = ' ')⟩

/-- Models Python `str.lower()` (ASCII case mapping). -/
def pyLower (s : String) : String :=
  ⟨s.data.map Char.toLower⟩

/-- Models Python `str.join` applied to a separator string. -/
def pyJoin (sep : String) : List String → String
  | [] => ""
  | [x] => x
  | x :: y :: rest => x ++ sep ++ pyJoin sep (y :: rest)

/-- Worker for `pySplitChar`; `cur` holds the current field reversed. -/
def pySplitCharAux (sep : Char) (cur : List Char) : List Char → List String
  | [] => [⟨cur.reverse⟩]
  | c :: rest =>
    if c = sep then ⟨cur.reverse⟩ :: pySplitCharAux sep [] rest
    else pySplitCharAux sep (c :: cur) rest

/-- Models Python `str.split(sep)` for a one-character separator. -/
def pySplitChar (s : String) (sep : Char) : List String :=
  pySplitCharAux sep [] s.data

/-- Models `pathlib.PurePath.stem` for a file name. -/
def pathStem (name : String) : String :=
  let l := name.data
  let suff := l.reverse.takeWhile (fun c => c ≠ '.')
  if suff.length = l.length then name
  else if suff.length = 0 then name
  else if suff.length + 1 = l.length then name
  else ⟨l.take (l.length - suff.length - 1)⟩

/-- Models Python `str.replace(pat, repl)` for a one-character pattern. -/
def replaceChar (c : Char) (r : List Char) : List Char → List Char
  | [] => []
  | x :: xs => (if x = c then r else [x]) ++ replaceChar c r xs

/-!  Constants of the script (`INTRO` is the triple-quoted literal after
     `.strip()`, and likewise `OUTRO`). -/

def INTRO : String :=
  "# Stock Mindmap 笔记导览\n\n> 本仓库的原始笔记全部保存在 `notes/` 目录。现已统一采用 [MkDocs](https://www.mkdocs.org/) + Material 主题生成静态站点，便于在线浏览与检索。"

def CATEGORIES_HEADING : String := "## 分类结构"

def OUTRO : String :=
  "更多笔记会在原有文件结构下继续扩展，方便使用者在本地编辑或在线浏览时保持一致体验。\n\n## 站点构建方式\n\n- 站点生成器：MkDocs 1.x + Material 主题\n- 笔记目录：直接引用 `notes/`，无需额外迁移\n- GitHub Pages：通过自动化工作流发布到 `gh-pages` 分支\n\n如需离线或自定义构建，可参考仓库根目录的 `README.md`。"

def ALL_NOTES_TITLE : String := "# 全部笔记索引"

def ALL_NOTES_INTRO : String :=
  "> 自动汇总 `notes/` 目录下的所有 Markdown 文件，按分类列出，便于快速查找。"

def CATEGORY_DESCRIPTIONS : List (String × String) :=
  [("strategy", "行为心理、仓位管理与模型复盘相关的体系化思考。"),
   ("markets", "历史行情、黑天鹅事件、波动率分析等具体案例回顾。"),
   ("economy", "宏观指标、央行政策、全球经济演化笔记。"),
   ("china", "国内监管事件、产业政策与对外关系整理。"),
   ("personal_finance", "资产配置、税务与跨境资金管理经验。"),
   ("misc", "未归类的阅读摘录、科技趋势和灵感记录。")]

def PLACEHOLDER_DESCRIPTION : String := "（待补充简介）"

/-- The chain of eight `str.replace` calls of `md_escape`, innermost
    (backslash) first. -/
def escChain (l : List Char) : List Char :=
  replaceChar '#' ['\\', '#']
    (replaceChar ')' ['\\', ')']
      (replaceChar '(' ['\\', '(']
        (replaceChar ']' ['\\', ']']
          (replaceChar '[' ['\\', '[']
            (replaceChar '_' ['\\', '_']
              (replaceChar '*' ['\\', '*']
                (replaceChar '\\' ['\\', '\\'] l)))))))

/-- `md_escape`: the chain of eight `str.replace` calls, backslash first. -/
def md_escape (text : String) : String :=
  ⟨escChain text.data⟩

/-- The eight characters `md_escape` escapes. -/
def escapeSet : List Char := ['\\', '*', '_', '[', ']', '(', ')', '#']

/-- Specification-side escaping: one backslash before each escaped
    character, in a single left-to-right pass. -/
def mdEscapeSpec (text : String) : String :=
  ⟨text.data.flatMap (fun ch => if ch ∈ escapeSet then ['\\', ch] else [ch])⟩

/-- `rel_url`: joins path parts with forward slashes, no percent-encoding. -/
def rel_url (parts : List String) : String :=
  pyJoin "/" parts

/-- `format_category_entry`: one landing-page bullet line. -/
def format_category_entry (title path description : String) : String :=
  "- [" ++ md_escape title ++ "](" ++ rel_url (pySplitChar path '/') ++ ")：" ++ description

/-!  The regex fallback `_extract_category_nav_by_regex`.  The three regular
     expressions of the source are modelled as explicit scanners over the
     code points of a (already `rstrip`-ped) line. -/

/-- Models `re.match(r"^(?P<indent>\s*)-\s*分类\s*:\s*", line)`, returning
    the captured indent length. -/
def markerMatch (line : String) : Option Nat :=
  let ws := line.data.takeWhile pyWsChar
  match line.data.dropWhile pyWsChar with
  | '-' :: rest =>
    match rest.dropWhile pyWsChar with
    | '分' :: '类' :: rest2 =>
      match rest2.dropWhile pyWsChar with
      | ':' :: _ => some ws.length
      | _ => none
    | _ => none
  | _ => none

/-- Models `re.match(r"^(?P<indent>\s*)-", line)`, returning the captured
    indent length. -/
def dashIndent (line : String) : Option Nat :=
  let ws := line.data.takeWhile pyWsChar
  match line.data.dropWhile pyWsChar with
  | '-' :: _ => some ws.length
  | _ => none

/-- Models `re.match(r"^(?P<indent>\s*)-\s*(?P<title>[^:]+):\s*(?P<path>\S+)",
    line)` followed by the `.strip()` the source applies to both groups:
    the title is everything between the dash and the first colon (at least
    one code point), the path the first whitespace-free run after it. -/
def entryFields (line : String) : Option (String × String) :=
  match line.data.dropWhile pyWsChar with
  | '-' :: rest =>
    let pre := rest.takeWhile (fun c => c ≠ ':')
    match rest.dropWhile (fun c => c ≠ ':') with
    | ':' :: post =>
      if pre = [] then none
      else
        let p := (post.dropWhile pyWsChar).takeWhile (fun c => !(pyWsChar c))
        if p = [] then none
        else some (pyStrip ⟨pre⟩, pyStrip ⟨p⟩)
    | _ => none
  | _ => none

/-- The loop body of `_extract_category_nav_by_regex` once the categories
    block marker has been seen (`in_categories = True`), with the marker's
    indent as `base`. -/
def scanCats (base : Nat) : List String → List (String × String)
  | [] => []
  | raw :: rest =>
    let line := pyRstrip raw
    if pyStrip line = "" then scanCats base rest
    else
      match dashIndent line with
      | none => []
      | some i =>
        if i ≤ base then []
        else
          match entryFields line with
          | some tp => tp :: scanCats base rest
          | none => scanCats base rest

/-- The loop of `_extract_category_nav_by_regex` before the marker has been
    seen: every line is only tested against the marker pattern. -/
def navRegexGo : List String → List (String × String)
  | [] => []
  | raw :: rest =>
    match markerMatch (pyRstrip raw) with
    | some base => scanCats base rest
    | none => navRegexGo rest

/-- `_extract_category_nav_by_regex`: the line-oriented fallback scan. -/
def _extract_category_nav_by_regex (mkdocs_text : String) : List (String × String) :=
  navRegexGo (pySplitlines mkdocs_text)

/-!  The structured (PyYAML) strategy of `extract_category_nav`. -/

/-- Parsed YAML documents, with string keys (the shape mkdocs.yml takes). -/
inductive Yaml where
  | null
  | bool (b : Bool)
  | int (n : Int)
  | str (s : String)
  | arr (xs : List Yaml)
  | map (kvs : List (String × Yaml))

/-- Python truthiness of a parsed value (`data or {}`, `cats or []`). -/
def pyTruthy : Yaml → Bool
  | .null => false
  | .bool b => b
  | .int n => n ≠ 0
  | .str s => s ≠ ""
  | .arr xs => !xs.isEmpty
  | .map kvs => !kvs.isEmpty

/-- Python iteration over a value: lists yield elements, strings yield
    one-character strings, dicts yield their keys; other values raise
    `TypeError`. -/
def pyIter : Yaml → Except Unit (List Yaml)
  | .arr xs => .ok xs
  | .str s => .ok (s.data.map (fun c => .str ⟨[c]⟩))
  | .map kvs => .ok (kvs.map (fun kv => .str kv.1))
  | _ => .error ()

mutual
/-- Approximates Python `repr` (quote-escaping inside strings not modelled;
    no claim exercises it). -/
def pyRepr : Yaml → String
  | .null => "None"
  | .bool true => "True"
  | .bool false => "False"
  | .int n => toString n
  | .str s => "'" ++ s ++ "'"
  | .arr xs => "[" ++ pyReprList xs ++ "]"
  | .map kvs => "\x7b" ++ pyReprMap kvs ++ "\x7d"

def pyReprList : List Yaml → String
  | [] => ""
  | [y] => pyRepr y
  | y :: y2 :: ys => pyRepr y ++ ", " ++ pyReprList (y2 :: ys)

def pyReprMap : List (String × Yaml) → String
  | [] => ""
  | [kv] => "'" ++ kv.1 ++ "': " ++ pyRepr kv.2
  | kv :: kv2 :: kvs => "'" ++ kv.1 ++ "': " ++ pyRepr kv.2 ++ ", " ++ pyReprMap (kv2 :: kvs)
end

/-- Python `str(value)`. -/
def pyStr : Yaml → String
  | .str s => s
  | y => pyRepr y

/-- `isinstance(item, dict) and "分类" in item`. -/
def isCatItem : Yaml → Bool
  | .map kvs => (kvs.lookup "分类").isSome
  | _ => false

/-- The body of the `try` block of `extract_category_nav` after
    `yaml.safe_load` succeeded; a `.error` is any raised exception
    (`AttributeError`, `TypeError`, ...), which the source's
    `except Exception` turns into the regex fallback. -/
def navStructured (data0 : Yaml) : Except Unit (List (String × String)) :=
  let data := if pyTruthy data0 then data0 else .map []
  match data with
  | .map kvs =>
    let nav := (kvs.lookup "nav").getD (.arr [])
    match pyIter nav with
    | .error e => .error e
    | .ok items =>
      match items.find? isCatItem with
      | none => .ok []
      | some it =>
        match it with
        | .map kvs2 =>
          let cats := (kvs2.lookup "分类").getD .null
          match (if pyTruthy cats then pyIter cats else .ok []) with
          | .error e => .error e
          | .ok entries =>
            .ok (entries.filterMap (fun e =>
              match e with
              | .map [kv] => some (kv.1, pyStr kv.2)
              | _ => none))
        | _ => .error ()
  | _ => .error ()

/-- Outcome of `import yaml; yaml.safe_load(mkdocs_text)`: the import can
    fail, parsing can raise, or a document is produced. -/
inductive ParseOutcome where
  | unavailable
  | parseError
  | parsed (y : Yaml)

/-- `extract_category_nav`: structured strategy first; the `except
    Exception` branch (import failure, parse error, or any error while
    walking the structure) falls back to the regex scan. -/
def extract_category_nav (po : ParseOutcome) (mkdocs_text : String) : List (String × String) :=
  match po with
  | .parsed y =>
    match navStructured y with
    | .ok l => l
    | .error _ => _extract_category_nav_by_regex mkdocs_text
  | _ => _extract_category_nav_by_regex mkdocs_text

/-!  The filesystem model: first-level files of `notes/` plus its
     subdirectories with their first-level files.  A file content of
     `none` models a file that exists but cannot be read or decoded
     (`read_text` raises). -/

structure NoteFile where
  name : String
  content : Option String
deriving DecidableEq

structure NotesDir where
  name : String
  files : List NoteFile
deriving DecidableEq

structure Fs where
  notesDirs : List NotesDir
  notesFiles : List NoteFile
deriving DecidableEq

/-- The `Category` record of the script; the directory `Path` is reduced
    to the directory's name under `notes/`. -/
structure Category where
  title : String
  dirName : String
  index_rel_path : String
deriving DecidableEq

/-- File lookup by exact name (case-sensitive, as on the Linux filesystems
    the script targets). -/
def findFile (files : List NoteFile) (name : String) : Option NoteFile :=
  files.find? (fun f => f.name == name)

/-- Directory lookup by exact name. -/
def findDir (fs : Fs) (name : String) : Option NotesDir :=
  fs.notesDirs.find? (fun d => d.name == name)

/-- First-level files of the directory `name`, `[]` if it does not exist
    (all call sites have established existence beforehand). -/
def dirFilesOf (fs : Fs) (name : String) : List NoteFile :=
  match findDir fs name with
  | some d => d.files
  | none => []

/-- `(d / "index.md").exists()`. -/
def hasIndexMd (d : NotesDir) : Bool :=
  (findFile d.files "index.md").isSome

/-- Names that `directory.glob("*.md")` yields (case-sensitive suffix;
    `*` does not match a leading dot). -/
def globMd (name : String) : Bool :=
  match name.data with
  | [] => false
  | c :: _ =>
    c ≠ '.' &&
    (match name.data.reverse with
     | 'd' :: 'm' :: '.' :: _ => true
     | _ => false)

/-- `read_category_title`: first `#`-starting stripped line of the
    directory's `index.md`, with `lstrip("# ").strip()` applied; falls back
    to the directory name.  A missing or unreadable file raises. -/
def read_category_title (d : NotesDir) : Except Unit String :=
  match findFile d.files "index.md" with
  | none => .error ()
  | some f =>
    match f.content with
    | none => .error ()
    | some text =>
      match (pySplitlines text).findSome? (fun line =>
          let s := pyStrip line
          match s.data with
          | '#' :: _ => some (pyStrip (pyLstripHashSpace s))
          | _ => none) with
      | some t => .ok t
      | none => .ok d.name

/-- The static toggle of the script (False: file names as titles). -/
def USE_H1_TITLES : Bool := false

/-- Models `_H1_RE.match(line.strip())` for `_H1_RE = ^#\s+(.+)$`:
    one hash, at least one whitespace, then a non-empty remainder. -/
def h1Match (s : String) : Option String :=
  match s.data with
  | '#' :: rest =>
    let ws := rest.takeWhile pyWsChar
    if ws = [] then none
    else
      let body := rest.dropWhile pyWsChar
      if body = [] then none else some ⟨body⟩
  | _ => none

/-- `read_note_title`: total — in filename mode the stem is returned
    without reading; in heading mode every read failure is caught and
    falls back to the stem. -/
def read_note_title (useH1 : Bool) (f : NoteFile) : String :=
  if useH1 = false then pathStem f.name
  else
    match f.content with
    | none => pathStem f.name
    | some text =>
      match (pySplitlines text).findSome? (fun line => h1Match (pyStrip line)) with
      | some t => pyStrip t
      | none => pathStem f.name

/-- `rel_path.split("/")[0]`. -/
def firstSegment (rel : String) : String :=
  match pySplitChar rel '/' with
  | [] => ""
  | s :: _ => s

/-- The first loop of `gather_categories`: navigation entries whose first
    path segment is an existing directory, in navigation order. -/
def gatherNavCats (fs : Fs) (nav : List (String × String)) : List Category :=
  nav.filterMap (fun tp =>
    let dn := firstSegment tp.2
    if (findDir fs dn).isSome then some ⟨tp.1, dn, tp.2⟩ else none)

/-- Lexicographic code-point comparison of code-point lists: exactly
    Python's `<=` on `str`. -/
def lexLe : List Char → List Char → Bool
  | [], _ => true
  | _ :: _, [] => false
  | a :: as, b :: bs => if a = b then lexLe as bs else decide (a < b)

/-- Python's `<=` on `str` (code-point lexicographic). -/
def strLeB (a b : String) : Bool :=
  lexLe a.data b.data

theorem lexLe_total (as bs : List Char) : lexLe as bs = true ∨ lexLe bs as = true := by
  induction as generalizing bs with
  | nil => left; rfl
  | cons a at2 ih =>
    cases bs with
    | nil => right; rfl
    | cons b bt =>
      by_cases hab : a = b
      · subst hab
        rcases ih bt with h | h
        · left; simpa [lexLe] using h
        · right; simpa [lexLe] using h
      · rcases lt_or_gt_of_ne hab with h | h
        · left; simp [lexLe, hab, h]
        · right; simp [lexLe, Ne.symm hab, h]

theorem lexLe_trans (as : List Char) : ∀ bs cs : List Char,
    lexLe as bs = true → lexLe bs cs = true → lexLe as cs = true := by
  induction as with
  | nil => intro bs cs _ _; rfl
  | cons a at2 ih =>
    intro bs cs h1 h2
    cases bs with
    | nil => simp [lexLe] at h1
    | cons b bt =>
      cases cs with
      | nil => simp [lexLe] at h2
      | cons c ct =>
        by_cases hab : a = b
        · subst hab
          by_cases hbc : a = c
          · subst hbc
            simp only [lexLe, if_pos rfl] at h1 h2 ⊢
            exact ih bt ct h1 h2
          · simp only [lexLe, if_pos rfl] at h1
            simpa [lexLe, hbc] using h2
        · simp only [lexLe, if_neg hab, decide_eq_true_eq] at h1
          by_cases hbc : b = c
          · subst hbc
            simp [lexLe, hab, h1]
          · simp only [lexLe, if_neg hbc, decide_eq_true_eq] at h2
            have hac : a < c := lt_trans h1 h2
            simp [lexLe, ne_of_lt hac, hac]

/-- Sort key order of `sorted(..., key=lambda p: p.name.lower())`. -/
def dirKeyLe (a b : NotesDir) : Prop :=
  strLeB (pyLower a.name) (pyLower b.name) = true

instance : DecidableRel dirKeyLe := fun a b =>
  inferInstanceAs (Decidable (strLeB (pyLower a.name) (pyLower b.name) = true))

instance : IsTotal NotesDir dirKeyLe :=
  ⟨fun a b => lexLe_total (pyLower a.name).data (pyLower b.name).data⟩

instance : IsTrans NotesDir dirKeyLe :=
  ⟨fun _ _ _ h1 h2 => lexLe_trans _ _ _ h1 h2⟩

/-- The `remaining_dirs` expression: directories of `notes/` that contain
    an `index.md` and were not consumed by the navigation pass, sorted
    case-insensitively by name (a stable sort, as Python's `sorted`). -/
def remainingDirs (fs : Fs) (seen : List String) : List NotesDir :=
  List.insertionSort dirKeyLe
    (fs.notesDirs.filter (fun d => hasIndexMd d && !(seen.contains d.name)))

/-- The second loop of `gather_categories`, reading each discovered
    directory's title (errors propagate). -/
def discoverCats : List NotesDir → Except Unit (List Category)
  | [] => .ok []
  | d :: ds =>
    match read_category_title d with
    | .error e => .error e
    | .ok t =>
      match discoverCats ds with
      | .error e => .error e
      | .ok rest => .ok (⟨t, d.name, d.name ++ "/index.md"⟩ :: rest)

/-- `gather_categories`. -/
def gather_categories (fs : Fs) (nav : List (String × String)) : Except Unit (List Category) :=
  match discoverCats (remainingDirs fs ((gatherNavCats fs nav).map (fun c => c.dirName))) with
  | .error e => .error e
  | .ok disc => .ok (gatherNavCats fs nav ++ disc)

/-- `build_category_entries`. -/
def build_category_entries (categories : List Category) : List String :=
  categories.map (fun c =>
    format_category_entry c.title c.index_rel_path
      ((CATEGORY_DESCRIPTIONS.lookup c.dirName).getD PLACEHOLDER_DESCRIPTION))

/-- `render_index`. -/
def render_index (entries : List String) : String :=
  pyRstrip (pyJoin "\n" ([INTRO, "", CATEGORIES_HEADING, ""] ++ entries ++ ["", OUTRO])) ++ "\n"

/-- Sort key order of the note-file sort. -/
def fileKeyLe (a b : NoteFile) : Prop :=
  strLeB (pyLower a.name) (pyLower b.name) = true

instance : DecidableRel fileKeyLe := fun a b =>
  inferInstanceAs (Decidable (strLeB (pyLower a.name) (pyLower b.name) = true))

instance : IsTotal NoteFile fileKeyLe :=
  ⟨fun a b => lexLe_total (pyLower a.name).data (pyLower b.name).data⟩

instance : IsTrans NoteFile fileKeyLe :=
  ⟨fun _ _ _ h1 h2 => lexLe_trans _ _ _ h1 h2⟩

/-- The note-file selection of `build_all_notes_sections` (lines 270-277):
    first-level `*.md` files except `index.md` in any case, sorted
    case-insensitively by file name. -/
def noteFilesAll (fs : Fs) (category : Category) : List NoteFile :=
  List.insertionSort fileKeyLe
    ((dirFilesOf fs category.dirName).filter
      (fun f => globMd f.name && pyLower f.name ≠ "index.md"))

/-- The identical selection expression of `build_category_index`
    (lines 306-309). -/
def noteFilesCat (fs : Fs) (category : Category) : List NoteFile :=
  List.insertionSort fileKeyLe
    ((dirFilesOf fs category.dirName).filter
      (fun f => globMd f.name && pyLower f.name ≠ "index.md"))

/-- `build_all_notes_sections`: per category with at least one note file,
    a heading, one bullet per note, and a blank separator. -/
def build_all_notes_sections (fs : Fs) (categories : List Category) : List String :=
  categories.flatMap (fun category =>
    let note_files := noteFilesAll fs category
    if note_files = [] then []
    else
      ("## " ++ md_escape category.title) ::
      note_files.map (fun f =>
        "- [" ++ md_escape (read_note_title USE_H1_TITLES f) ++ "](" ++
          rel_url [category.dirName, f.name] ++ ")") ++ [""])

/-- `render_all_notes`. -/
def render_all_notes (fs : Fs) (categories : List Category) : String :=
  pyRstrip (pyJoin "\n" ([ALL_NOTES_TITLE, "", ALL_NOTES_INTRO, ""] ++
    build_all_notes_sections fs categories)) ++ "\n"

/-- `build_category_index`. -/
def build_category_index (fs : Fs) (category : Category) : String :=
  let files := noteFilesCat fs category
  let head := ["# " ++ md_escape category.title, "",
    "> 本目录列出该分类下的全部原始笔记，方便在站点导航中快速定位。",
    "> 本页由脚本自动生成，列出该分类下的所有笔记。", ""]
  if files = [] then
    pyRstrip (pyJoin "\n" (head ++ ["_（暂无条目）_", ""])) ++ "\n"
  else
    pyRstrip (pyJoin "\n" (head ++
      files.map (fun f =>
        "- [" ++ md_escape (read_note_title USE_H1_TITLES f) ++ "](" ++
          rel_url [f.name] ++ ")") ++ [""])) ++ "\n"

/-!  The sync writer and the orchestration. -/

/-- `write_if_changed` on a directory's file list: read the existing
    content (`""` if the file is absent; raise if it exists but cannot be
    read), write only on difference.  A write either replaces the content
    of the named file or creates it. -/
def writeIfChangedFiles (files : List NoteFile) (name content : String) :
    Except Unit (List NoteFile) :=
  match findFile files name with
  | none =>
    if "" = content then .ok files
    else .ok (files ++ [⟨name, some content⟩])
  | some f =>
    match f.content with
    | none => .error ()
    | some old =>
      if old = content then .ok files
      else .ok (files.map (fun g => if g.name = name then ⟨g.name, some content⟩ else g))

/-- The content `write_if_changed` compares against (absent file = `""`). -/
def oldContentOf (files : List NoteFile) (name : String) : String :=
  match findFile files name with
  | none => ""
  | some f => f.content.getD ""

/-- The write `write_if_changed` performs when contents differ. -/
def setFileContent (files : List NoteFile) (name content : String) : List NoteFile :=
  match findFile files name with
  | none => files ++ [⟨name, some content⟩]
  | some _ => files.map (fun g => if g.name = name then ⟨g.name, some content⟩ else g)

/-- Whether the target of a write is readable (absent counts as readable). -/
def readableAt (files : List NoteFile) (name : String) : Bool :=
  match findFile files name with
  | none => true
  | some f => f.content.isSome

/-- `write_if_changed` on a first-level file of `notes/`. -/
def writeRootIfChanged (fs : Fs) (name content : String) : Except Unit Fs :=
  match writeIfChangedFiles fs.notesFiles name content with
  | .error e => .error e
  | .ok files => .ok { fs with notesFiles := files }

/-- `write_if_changed` on a file inside the directory `dirName` (writing
    into a missing directory raises). -/
def writeDirIfChanged (fs : Fs) (dirName fileName content : String) : Except Unit Fs :=
  match findDir fs dirName with
  | none => .error ()
  | some d =>
    match writeIfChangedFiles d.files fileName content with
    | .error e => .error e
    | .ok files =>
      .ok { fs with notesDirs :=
        fs.notesDirs.map (fun d2 => if d2.name = dirName then { d2 with files := files } else d2) }

/-- `update_category_indexes`: the content of each category index is built
    from the filesystem as it stands when that category is written. -/
def update_category_indexes (fs : Fs) : List Category → Except Unit Fs
  | [] => .ok fs
  | c :: cs =>
    match writeDirIfChanged fs c.dirName "index.md" (build_category_index fs c) with
    | .error e => .error e
    | .ok fs1 => update_category_indexes fs1 cs

/-- `main` after its existence checks: extract navigation, gather
    categories, render both root documents from the pre-write filesystem,
    then write all three kinds of output. -/
def runMain (po : ParseOutcome) (mkdocs_text : String) (fs : Fs) : Except Unit Fs :=
  match gather_categories fs (extract_category_nav po mkdocs_text) with
  | .error e => .error e
  | .ok categories =>
    match writeRootIfChanged fs "index.md" (render_index (build_category_entries categories)) with
    | .error e => .error e
    | .ok fs1 =>
      match writeRootIfChanged fs1 "all-notes.md" (render_all_notes fs categories) with
      | .error e => .error e
      | .ok fs2 => update_category_indexes fs2 categories

/-!  Helper lemmas (string plumbing shared by several claims). -/

theorem strMk_append (a b : List Char) : (⟨a⟩ : String) ++ ⟨b⟩ = ⟨a ++ b⟩ := rfl

theorem strMk_data (s : String) : (⟨s.data⟩ : String) = s := rfl

theorem replaceChar_append (c : Char) (r : List Char) (l1 l2 : List Char) :
    replaceChar c r (l1 ++ l2) = replaceChar c r l1 ++ replaceChar c r l2 := by
  induction l1 with
  | nil => simp [replaceChar]
  | cons x xs ih => simp [replaceChar, ih, List.append_assoc]

theorem escChain_append (l1 l2 : List Char) :
    escChain (l1 ++ l2) = escChain l1 ++ escChain l2 := by
  simp [escChain, replaceChar_append]

theorem escChain_single (x : Char) :
    escChain [x] = if x ∈ escapeSet then ['\\', x] else [x] := by
  rcases eq_or_ne x '\\' with h | h1
  · subst h; decide
  rcases eq_or_ne x '*' with h | h2
  · subst h; decide
  rcases eq_or_ne x '_' with h | h3
  · subst h; decide
  rcases eq_or_ne x '[' with h | h4
  · subst h; decide
  rcases eq_or_ne x ']' with h | h5
  · subst h; decide
  rcases eq_or_ne x '(' with h | h6
  · subst h; decide
  rcases eq_or_ne x ')' with h | h7
  · subst h; decide
  rcases eq_or_ne x '#' with h | h8
  · subst h; decide
  simp [escChain, replaceChar, escapeSet, h1, h2, h3, h4, h5, h6, h7, h8]

theorem escChain_eq_spec (l : List Char) :
    escChain l = l.flatMap (fun ch => if ch ∈ escapeSet then ['\\', ch] else [ch]) := by
  induction l with
  | nil => simp [escChain, replaceChar]
  | cons x xs ih =>
    have h : x :: xs = [x] ++ xs := rfl
    rw [h, escChain_append, escChain_single, ih]
    simp

theorem pyJoin_cons_of_ne_nil (sep x : String) (xs : List String) (h : xs ≠ []) :
    pyJoin sep (x :: xs) = x ++ sep ++ pyJoin sep xs := by
  cases xs with
  | nil => exact absurd rfl h
  | cons y ys => rfl

theorem pySplitCharAux_ne_nil (sep : Char) (l cur : List Char) :
    pySplitCharAux sep cur l ≠ [] := by
  induction l generalizing cur with
  | nil => simp [pySplitCharAux]
  | cons c rest ih =>
    by_cases hc : c = sep
    · simp [pySplitCharAux, hc]
    · simpa [pySplitCharAux, hc] using ih (c :: cur)

theorem pyJoin_pySplitCharAux (l : List Char) : ∀ cur : List Char,
    pyJoin "/" (pySplitCharAux '/' cur l) = ⟨cur.reverse ++ l⟩ := by
  induction l with
  | nil => intro cur; simp [pySplitCharAux, pyJoin]
  | cons c rest ih =>
    intro cur
    by_cases hc : c = '/'
    · subst hc
      rw [show pySplitCharAux '/' cur ('/' :: rest) =
            (⟨cur.reverse⟩ : String) :: pySplitCharAux '/' [] rest by
          simp [pySplitCharAux]]
      rw [pyJoin_cons_of_ne_nil _ _ _ (pySplitCharAux_ne_nil '/' rest [])]
      rw [ih []]
      rw [show ("/" : String) = ⟨['/']⟩ from rfl]
      rw [strMk_append, strMk_append]
      simp
    · rw [show pySplitCharAux '/' cur (c :: rest) =
            pySplitCharAux '/' (c :: cur) rest by simp [pySplitCharAux, hc]]
      rw [ih (c :: cur)]
      simp

theorem rel_url_pySplitChar (p : String) : rel_url (pySplitChar p '/') = p := by
  unfold rel_url pySplitChar
  rw [pyJoin_pySplitCharAux]
  simp [strMk_data]

theorem pyRstrip_append (s t : String) (h : t.data.reverse.dropWhile pyWsChar ≠ []) :
    pyRstrip (s ++ t) = s ++ pyRstrip t := by
  unfold pyRstrip
  have hd : (s ++ t).data = s.data ++ t.data := rfl
  rw [hd, List.reverse_append, List.dropWhile_append]
  have hne : (t.data.reverse.dropWhile pyWsChar).isEmpty = false := by
    cases he : t.data.reverse.dropWhile pyWsChar with
    | nil => exact absurd he h
    | cons a l => simp
  rw [hne]
  simp only [Bool.false_eq_true, if_false, List.reverse_append]
  rw [← strMk_append]
  simp [strMk_data]

/-- `noteFilesCat` is the same selection expression as `noteFilesAll`
    (the source duplicates it verbatim). -/
theorem noteFilesCat_eq_noteFilesAll (fs : Fs) (category : Category) :
    noteFilesCat fs category = noteFilesAll fs category := rfl

/-- C4: `md_escape` prefixes each occurrence of a character of
    `escapeSet` (backslash, asterisk, underscore, both brackets, both
    parentheses, hash) with exactly one backslash — the chained
    replacements, backslash first, equal a single left-to-right pass that
    escapes each occurrence once — and every landing-page bullet carries
    the escaped title as link text while the link target path is passed
    through verbatim (split on `/` and re-joined, no escaping, no
    percent-encoding). -/
theorem c4_escape_once_link_target_verbatim :
    (∀ text : String, md_escape text = mdEscapeSpec text) ∧
    (∀ title path description : String,
      format_category_entry title path description =
        "- [" ++ md_escape title ++ "](" ++ path ++ ")：" ++ description) := by
  constructor
  · intro text
    unfold md_escape mdEscapeSpec
    rw [escChain_eq_spec]
  · intro title path description
    unfold format_category_entry
    rw [rel_url_pySplitChar]

/-- C5: behaviour of the fallback scan after the `- 分类:` marker
    (indent `base`) has been found: blank lines are skipped without
    terminating; a line that does not match the list-item pattern at all
    terminates the scan at once; a list item indented at most `base`
    terminates the scan; a deeper line is emitted as a (title, path) pair
    exactly when it matches the entry pattern, and the scan continues in
    order. -/
theorem c5_fallback_scan_behaviour :
    (∀ (base : Nat) (raw : String) (rest : List String),
      pyStrip (pyRstrip raw) = "" →
      scanCats base (raw :: rest) = scanCats base rest) ∧
    (∀ (base : Nat) (raw : String) (rest : List String),
      pyStrip (pyRstrip raw) ≠ "" →
      dashIndent (pyRstrip raw) = none →
      scanCats base (raw :: rest) = []) ∧
    (∀ (base : Nat) (raw : String) (rest : List String) (i : Nat),
      pyStrip (pyRstrip raw) ≠ "" →
      dashIndent (pyRstrip raw) = some i → i ≤ base →
      scanCats base (raw :: rest) = []) ∧
    (∀ (base : Nat) (raw : String) (rest : List String) (i : Nat),
      pyStrip (pyRstrip raw) ≠ "" →
      dashIndent (pyRstrip raw) = some i → base < i →
      scanCats base (raw :: rest) =
        match entryFields (pyRstrip raw) with
        | some tp => tp :: scanCats base rest
        | none => scanCats base rest) := by
  refine ⟨?_, ?_, ?_, ?_⟩
  · intro base raw rest h
    simp [scanCats, h]
  · intro base raw rest h1 h2
    simp [scanCats, h1, h2]
  · intro base raw rest i h1 h2 h3
    simp [scanCats, h1, h2, h3]
  · intro base raw rest i h1 h2 h3
    have h4 : ¬ i ≤ base := Nat.not_le.mpr h3
    simp [scanCats, h1, h2, h4]

/-- Witness for C5: a blank line is skipped, a matching deeper entry is
    emitted, and a plain line ends the scan before a further entry. -/
theorem c5_fallback_scan_behaviour_witness :
    scanCats 0 ["   ", "  - a: b", "x y", "  - c: d"] = [("a", "b")] := by
  rw [c5_fallback_scan_behaviour.1 0 "   " ["  - a: b", "x y", "  - c: d"] (by decide)]
  rw [c5_fallback_scan_behaviour.2.2.2 0 "  - a: b" ["x y", "  - c: d"] 2
    (by decide) (by decide) (by decide)]
  rw [c5_fallback_scan_behaviour.2.1 0 "x y" ["  - c: d"] (by decide) (by decide)]
  decide

/-- C6: a file whose name is `index.md` under (ASCII) case-insensitive
    comparison is never among the note files listed by the flattened
    all-notes index (`noteFilesAll`, the selection of
    `build_all_notes_sections`) nor by the category's own index page
    (`noteFilesCat`, the selection of `build_category_index`). -/
theorem c6_index_md_never_listed (fs : Fs) (category : Category) (f : NoteFile)
    (h : f ∈ noteFilesAll fs category ∨ f ∈ noteFilesCat fs category) :
    pyLower f.name ≠ "index.md" := by
  have hmem : f ∈ (dirFilesOf fs category.dirName).filter
      (fun f => globMd f.name && pyLower f.name ≠ "index.md") := by
    rcases h with h | h
    · exact (List.perm_insertionSort fileKeyLe _).subset h
    · exact (List.perm_insertionSort fileKeyLe _).subset h
  have hp := (List.mem_filter.mp hmem).2
  simp only [Bool.and_eq_true, decide_eq_true_eq] at hp
  exact hp.2

def c6Fs : Fs := ⟨[⟨"x", [⟨"notes.md", some ""⟩, ⟨"index.md", some ""⟩]⟩], []⟩

def c6Cat : Category := ⟨"T", "x", "x/index.md"⟩

/-- Witness for C6 at a concrete listed note file. -/
theorem c6_index_md_never_listed_witness :
    pyLower (NoteFile.mk "notes.md" (some "")).name ≠ "index.md" :=
  c6_index_md_never_listed c6Fs c6Cat ⟨"notes.md", some ""⟩ (Or.inl (by decide))

/-- C7: a category with zero qualifying note files contributes no section
    (no heading, no bullets) to the flattened all-notes index, while its
    own index page is still fully rendered with the placeholder line in
    place of bullets. -/
theorem c7_empty_category (fs : Fs) (category : Category) (pre post : List Category)
    (h : noteFilesAll fs category = []) :
    build_all_notes_sections fs (pre ++ category :: post) =
      build_all_notes_sections fs (pre ++ post) ∧
    build_category_index fs category =
      "# " ++ md_escape category.title ++
        "\n\n> 本目录列出该分类下的全部原始笔记，方便在站点导航中快速定位。\n> 本页由脚本自动生成，列出该分类下的所有笔记。\n\n_（暂无条目）_\n" := by
  constructor
  · unfold build_all_notes_sections
    rw [List.flatMap_append, List.flatMap_append, List.flatMap_cons]
    simp [h]
  · unfold build_category_index
    rw [noteFilesCat_eq_noteFilesAll, h]
    simp only [if_pos rfl]
    rw [show (["# " ++ md_escape category.title, "",
          "> 本目录列出该分类下的全部原始笔记，方便在站点导航中快速定位。",
          "> 本页由脚本自动生成，列出该分类下的所有笔记。", ""] ++ ["_（暂无条目）_", ""]) =
        ("# " ++ md_escape category.title) ::
          ["", "> 本目录列出该分类下的全部原始笔记，方便在站点导航中快速定位。",
           "> 本页由脚本自动生成，列出该分类下的所有笔记。", "", "_（暂无条目）_", ""] from rfl]
    rw [pyJoin_cons_of_ne_nil "\n" ("# " ++ md_escape category.title) _ (by decide)]
    rw [show pyJoin "\n"
          ["", "> 本目录列出该分类下的全部原始笔记，方便在站点导航中快速定位。",
           "> 本页由脚本自动生成，列出该分类下的所有笔记。", "", "_（暂无条目）_", ""] =
        "\n> 本目录列出该分类下的全部原始笔记，方便在站点导航中快速定位。\n> 本页由脚本自动生成，列出该分类下的所有笔记。\n\n_（暂无条目）_\n"
        from by decide]
    rw [String.append_assoc]
    rw [pyRstrip_append ("# " ++ md_escape category.title)
      ("\n" ++ "\n> 本目录列出该分类下的全部原始笔记，方便在站点导航中快速定位。\n> 本页由脚本自动生成，列出该分类下的所有笔记。\n\n_（暂无条目）_\n")
      (by decide)]
    rw [show pyRstrip
          ("\n" ++ "\n> 本目录列出该分类下的全部原始笔记，方便在站点导航中快速定位。\n> 本页由脚本自动生成，列出该分类下的所有笔记。\n\n_（暂无条目）_\n") =
        "\n\n> 本目录列出该分类下的全部原始笔记，方便在站点导航中快速定位。\n> 本页由脚本自动生成，列出该分类下的所有笔记。\n\n_（暂无条目）_"
        from by decide]
    rw [String.append_assoc]
    rw [show ("\n\n> 本目录列出该分类下的全部原始笔记，方便在站点导航中快速定位。\n> 本页由脚本自动生成，列出该分类下的所有笔记。\n\n_（暂无条目）_" : String) ++ "\n" =
        "\n\n> 本目录列出该分类下的全部原始笔记，方便在站点导航中快速定位。\n> 本页由脚本自动生成，列出该分类下的所有笔记。\n\n_（暂无条目）_\n"
        from by decide]
    simp

def c7Fs : Fs := ⟨[⟨"empty", [⟨"index.md", some ""⟩, ⟨"readme.txt", some ""⟩]⟩], []⟩

def c7Cat : Category := ⟨"空分类", "empty", "empty/index.md"⟩

/-- Witness for C7 at a concrete empty category. -/
theorem c7_empty_category_witness :
    build_all_notes_sections c7Fs ([] ++ c7Cat :: []) = build_all_notes_sections c7Fs ([] ++ []) :=
  (c7_empty_category c7Fs c7Cat [] [] (by decide)).1

theorem findFile_map_upd (l : List NoteFile) (name content other : String) :
    findFile (l.map (fun g => if g.name = name then ⟨g.name, some content⟩ else g)) other =
      (findFile l other).map (fun g => if g.name = name then ⟨g.name, some content⟩ else g) := by
  induction l with
  | nil => rfl
  | cons g gs ih =>
    have hname : (if g.name = name then (⟨g.name, some content⟩ : NoteFile) else g).name
        = g.name := by
      by_cases hg : g.name = name <;> simp [hg]
    by_cases ho : (g.name == other) = true
    · simp [findFile, List.find?_cons, hname, ho]
    · simp only [findFile, List.map_cons, List.find?_cons, hname, ho] at *
      simpa [Bool.false_eq_true, if_false] using ih

/-- C8: the sync writer reads the existing content (an absent file counts
    as the empty string), rewrites the file exactly when the rendered
    content differs, leaves the list untouched when it is equal, and a
    performed write only touches the named file, whose stored content
    becomes the rendered one. -/
theorem c8_write_if_changed_contract (files : List NoteFile) (name content : String)
    (h : readableAt files name = true) :
    writeIfChangedFiles files name content =
      .ok (if oldContentOf files name = content then files
           else setFileContent files name content) ∧
    (oldContentOf files name = content →
      writeIfChangedFiles files name content = .ok files) ∧
    (∀ other : String, other ≠ name →
      findFile (setFileContent files name content) other = findFile files other) ∧
    oldContentOf (setFileContent files name content) name = content := by
  cases hf : findFile files name with
  | none =>
    have holdc : oldContentOf files name = "" := by simp [oldContentOf, hf]
    have hset : setFileContent files name content = files ++ [⟨name, some content⟩] := by
      simp [setFileContent, hf]
    have hfind1 : findFile [(⟨name, some content⟩ : NoteFile)] name = some ⟨name, some content⟩ := by
      simp [findFile, List.find?_cons]
    have hf2 : List.find? (fun f => f.name == name) files = none := hf
    refine ⟨?_, ?_, ?_, ?_⟩
    · by_cases hc : "" = content
      · subst hc
        simp [writeIfChangedFiles, hf, holdc]
      · simp [writeIfChangedFiles, hf, hc, holdc, hset, Ne.symm hc]
    · intro hold
      rw [holdc] at hold
      simp [writeIfChangedFiles, hf, hold]
    · intro other hother
      rw [hset]
      unfold findFile
      rw [List.find?_append]
      have hone : List.find? (fun f => f.name == other) [(⟨name, some content⟩ : NoteFile)]
          = none := by
        have hb : (name == other) = false := beq_eq_false_iff_ne.mpr (Ne.symm hother)
        simp [List.find?_cons, hb]
      rw [hone, Option.or_none]
    · rw [hset]
      unfold oldContentOf findFile
      rw [List.find?_append, hf2]
      simp only [Option.none_or]
      rw [show List.find? (fun f => f.name == name) [(⟨name, some content⟩ : NoteFile)]
          = some ⟨name, some content⟩ from by simp [List.find?_cons]]
      rfl
  | some f =>
    have hfn : f.name = name := by
      have := List.find?_some hf
      simpa using this
    have hread : f.content.isSome = true := by
      simpa [readableAt, hf] using h
    cases hc : f.content with
    | none => rw [hc] at hread; simp at hread
    | some old =>
      have holdc : oldContentOf files name = old := by simp [oldContentOf, hf, hc]
      have hset : setFileContent files name content =
          files.map (fun g => if g.name = name then ⟨g.name, some content⟩ else g) := by
        simp [setFileContent, hf]
      refine ⟨?_, ?_, ?_, ?_⟩
      · by_cases he : old = content
        · simp [writeIfChangedFiles, hf, hc, he, holdc]
        · simp [writeIfChangedFiles, hf, hc, he, holdc, hset]
      · intro hold
        rw [holdc] at hold
        simp [writeIfChangedFiles, hf, hc, hold]
      · intro other hother
        rw [hset, findFile_map_upd]
        cases hfo : findFile files other with
        | none => rfl
        | some g =>
          have hgn : g.name = other := by
            have := List.find?_some hfo
            simpa using this
          have : g.name ≠ name := by rw [hgn]; exact hother
          simp [this]
      · rw [hset]
        unfold oldContentOf
        rw [findFile_map_upd, hf]
        simp [hfn]

def c8Files : List NoteFile := [⟨"index.md", some "old"⟩, ⟨"a.md", some "x"⟩]

/-- Witness for C8 at a concrete readable target. -/
theorem c8_write_if_changed_contract_witness :
    writeIfChangedFiles c8Files "index.md" "new" =
      .ok (if oldContentOf c8Files "index.md" = "new" then c8Files
           else setFileContent c8Files "index.md" "new") :=
  (c8_write_if_changed_contract c8Files "index.md" "new" (by decide)).1

/-- C9: the note-title resolver is total — in filename mode it is the
    stem of the file name, never reading content, and in heading mode an
    unreadable file falls back to the stem — while `read_category_title`
    propagates a read failure, which aborts the whole run when a
    discovered category's `index.md` is unreadable. -/
theorem c9_note_titles_total_category_title_aborts :
    (∀ f : NoteFile, read_note_title false f = pathStem f.name) ∧
    (∀ name : String, read_note_title true ⟨name, none⟩ = pathStem name) ∧
    read_category_title ⟨"c", [⟨"index.md", none⟩]⟩ = .error () ∧
    runMain .unavailable "" ⟨[⟨"c", [⟨"index.md", none⟩]⟩], []⟩ = .error () := by
  refine ⟨fun f => rfl, fun name => rfl, rfl, rfl⟩

/-- C3 counterexample: when parsing raises (a malformed document), the
    primary strategy does not return the empty list — the `except` branch
    runs the regex fallback, which here yields a navigation entry. -/
theorem c3_parse_error_does_not_return_empty :
    extract_category_nav .parseError "- 分类:\n  - t: x" = [("t", "x")] ∧
    ([(("t" : String), ("x" : String))] : List (String × String)) ≠ [] := by
  exact ⟨by decide, by decide⟩

/-- C3 (amended): the regex fallback is used when the structured parser is
    unavailable or when parsing or walking the parsed structure raises;
    when the walk succeeds its result is returned as is, and a parsed
    navigation list with no categories entry yields the empty list. -/
theorem c3_strategy_selection :
    (∀ text : String,
      extract_category_nav .unavailable text = _extract_category_nav_by_regex text) ∧
    (∀ text : String,
      extract_category_nav .parseError text = _extract_category_nav_by_regex text) ∧
    (∀ (text : String) (y : Yaml), navStructured y = .error () →
      extract_category_nav (.parsed y) text = _extract_category_nav_by_regex text) ∧
    (∀ (text : String) (y : Yaml) (l : List (String × String)), navStructured y = .ok l →
      extract_category_nav (.parsed y) text = l) ∧
    (∀ items : List Yaml, items.all (fun it => !(isCatItem it)) = true →
      navStructured (.map [("nav", .arr items)]) = .ok []) := by
  refine ⟨fun _ => rfl, fun _ => rfl, ?_, ?_, ?_⟩
  · intro text y h
    simp [extract_category_nav, h]
  · intro text y l h
    simp [extract_category_nav, h]
  · intro items h
    have hfind : items.find? isCatItem = none := by
      rw [List.find?_eq_none]
      intro x hx
      have hx2 := List.all_eq_true.mp h x hx
      simp only [Bool.not_eq_true'] at hx2
      simp [hx2]
    unfold navStructured
    simp [pyTruthy, pyIter, List.lookup, hfind]

/-- Witness for C3 (amended): a truthy non-mapping document (`1`) makes the
    structure walk raise, so the fallback scan runs and finds the block. -/
theorem c3_strategy_selection_witness :
    extract_category_nav (.parsed (.int 1)) "- 分类:\n  - t: x" = [("t", "x")] := by
  rw [c3_strategy_selection.2.2.1 "- 分类:\n  - t: x" (.int 1) rfl]
  decide

def c2Fs : Fs := ⟨[⟨"x", []⟩], []⟩

def c2Nav : List (String × String) := [("A", "x/one.md"), ("B", "x/two.md")]

/-- C2 counterexample: two navigation entries whose paths share the first
    segment `x` both become categories, so the output carries two
    categories with the same directory name. -/
theorem c2_duplicate_directory_names :
    (gather_categories c2Fs c2Nav).map (fun cats => cats.map (fun c => c.dirName)) =
      .ok ["x", "x"] ∧
    ¬ (["x", "x"] : List String).Nodup := by
  exact ⟨rfl, by decide⟩

theorem discoverCats_names : ∀ (ds : List NotesDir) (disc : List Category),
    discoverCats ds = .ok disc →
    disc.map (fun c => c.dirName) = ds.map (fun d => d.name) := by
  intro ds
  induction ds with
  | nil =>
    intro disc h
    simp only [discoverCats] at h
    cases h
    rfl
  | cons d ds ih =>
    intro disc h
    simp only [discoverCats] at h
    cases ht : read_category_title d with
    | error e => rw [ht] at h; simp at h
    | ok t =>
      rw [ht] at h
      cases hr : discoverCats ds with
      | error e => rw [hr] at h; simp at h
      | ok rest =>
        rw [hr] at h
        cases h
        simp [ih rest hr]

/-- C2 (amended): the gathered list is the navigation-declared categories
    first, in navigation order (possibly repeating a directory name when
    two navigation entries resolve to the same first segment), followed by
    the undeclared-but-present directories sorted case-insensitively by
    name; given distinct on-disk directory names the discovered part is
    duplicate-free and disjoint from every navigation-consumed directory
    name. -/
theorem c2_order_structure (fs : Fs) (nav : List (String × String)) (cats : List Category)
    (hnd : (fs.notesDirs.map (fun d => d.name)).Nodup)
    (hg : gather_categories fs nav = .ok cats) :
    cats.take (gatherNavCats fs nav).length = gatherNavCats fs nav ∧
    (cats.drop (gatherNavCats fs nav).length).map (fun c => c.dirName) =
      (remainingDirs fs ((gatherNavCats fs nav).map (fun c => c.dirName))).map
        (fun d => d.name) ∧
    List.Pairwise (fun a b : String => strLeB (pyLower a) (pyLower b) = true)
      ((cats.drop (gatherNavCats fs nav).length).map (fun c => c.dirName)) ∧
    ((cats.drop (gatherNavCats fs nav).length).map (fun c => c.dirName)).Nodup ∧
    ((cats.drop (gatherNavCats fs nav).length).map (fun c => c.dirName)).all
      (fun n => !(((gatherNavCats fs nav).map (fun c => c.dirName)).contains n)) = true := by
  unfold gather_categories at hg
  cases hd : discoverCats
      (remainingDirs fs ((gatherNavCats fs nav).map (fun c => c.dirName))) with
  | error e => rw [hd] at hg; simp at hg
  | ok disc =>
    rw [hd] at hg
    cases hg
    have hnames := discoverCats_names _ _ hd
    have hperm : (remainingDirs fs ((gatherNavCats fs nav).map (fun c => c.dirName))).Perm
        (fs.notesDirs.filter (fun d => hasIndexMd d &&
          !((((gatherNavCats fs nav).map (fun c => c.dirName))).contains d.name))) :=
      List.perm_insertionSort dirKeyLe _
    refine ⟨List.take_left _ _, ?_, ?_, ?_, ?_⟩
    · rw [List.drop_left]; exact hnames
    · rw [List.drop_left, hnames]
      have hsor : List.Pairwise dirKeyLe
          (remainingDirs fs ((gatherNavCats fs nav).map (fun c => c.dirName))) :=
        List.sorted_insertionSort dirKeyLe _
      refine List.Pairwise.map (fun d => d.name) ?_ hsor
      intro a b hab
      exact hab
    · rw [List.drop_left, hnames]
      have hfnd : ((fs.notesDirs.filter (fun d => hasIndexMd d &&
          !((((gatherNavCats fs nav).map (fun c => c.dirName))).contains d.name))).map
            (fun d => d.name)).Nodup :=
        ((List.filter_sublist fs.notesDirs).map (fun d => d.name)).nodup hnd
      exact (hperm.map (fun d => d.name)).symm.nodup hfnd
    · rw [List.drop_left, hnames]
      rw [List.all_eq_true]
      intro n hn
      obtain ⟨d, hdmem, hdn⟩ := List.mem_map.mp hn
      have hd2 := hperm.subset hdmem
      have hp := (List.mem_filter.mp hd2).2
      rw [Bool.and_eq_true] at hp
      rw [← hdn]
      exact hp.2

def c2wFs : Fs :=
  ⟨[⟨"beta", [⟨"index.md", some "# B\n"⟩]⟩,
    ⟨"Alpha", [⟨"index.md", some "# A\n"⟩]⟩,
    ⟨"strategy", []⟩], []⟩

def c2wNav : List (String × String) := [("策略", "strategy/index.md")]

def c2wCats : List Category := ((gather_categories c2wFs c2wNav).toOption).getD []

/-- Witness for C2 (amended) at a concrete filesystem with one declared
    and two discovered categories. -/
theorem c2_order_structure_witness :
    c2wCats.take (gatherNavCats c2wFs c2wNav).length = gatherNavCats c2wFs c2wNav ∧
    (c2wCats.drop (gatherNavCats c2wFs c2wNav).length).map (fun c => c.dirName) =
      (remainingDirs c2wFs ((gatherNavCats c2wFs c2wNav).map (fun c => c.dirName))).map
        (fun d => d.name) ∧
    List.Pairwise (fun a b : String => strLeB (pyLower a) (pyLower b) = true)
      ((c2wCats.drop (gatherNavCats c2wFs c2wNav).length).map (fun c => c.dirName)) ∧
    ((c2wCats.drop (gatherNavCats c2wFs c2wNav).length).map (fun c => c.dirName)).Nodup ∧
    ((c2wCats.drop (gatherNavCats c2wFs c2wNav).length).map (fun c => c.dirName)).all
      (fun n => !(((gatherNavCats c2wFs c2wNav).map (fun c => c.dirName)).contains n)) = true :=
  c2_order_structure c2wFs c2wNav c2wCats (by decide) rfl

/-- Whether directory `dn` (as seen from the notes root) contains a file
    named `fn`. -/
def hasFileIn (fs : Fs) (dn fn : String) : Bool :=
  (findFile (dirFilesOf fs dn) fn).isSome

theorem append_newline_ne_empty (s : String) : s ++ "\n" ≠ "" := by
  intro h
  have hdata : (s ++ "\n").data = ("" : String).data := congrArg String.data h
  rw [show (s ++ "\n").data = s.data ++ ['\n'] from rfl] at hdata
  simp at hdata

theorem build_category_index_ne_empty (fs : Fs) (category : Category) :
    build_category_index fs category ≠ "" := by
  unfold build_category_index
  dsimp only
  split
  · exact append_newline_ne_empty _
  · exact append_newline_ne_empty _

theorem wicf_ok_exists (files files2 : List NoteFile) (fn content : String)
    (h : writeIfChangedFiles files fn content = .ok files2) (hc : content ≠ "") :
    (findFile files2 fn).isSome = true := by
  unfold writeIfChangedFiles at h
  cases hf : findFile files fn with
  | none =>
    rw [hf] at h
    dsimp only at h
    have hc2 : ¬ ("" = content) := fun he => hc he.symm
    rw [if_neg hc2] at h
    cases h
    unfold findFile
    rw [List.find?_append]
    have hf2 : List.find? (fun f => f.name == fn) files = none := hf
    rw [hf2]
    simp [List.find?_cons]
  | some f =>
    rw [hf] at h
    dsimp only at h
    cases hcf : f.content with
    | none => rw [hcf] at h; dsimp only at h; simp at h
    | some old =>
      rw [hcf] at h
      dsimp only at h
      by_cases he : old = content
      · rw [if_pos he] at h
        cases h
        simp [hf]
      · rw [if_neg he] at h
        cases h
        have hmap : List.find? (fun g => g.name == fn)
            (files.map (fun g => if g.name = fn then (⟨g.name, some content⟩ : NoteFile) else g)) =
            (findFile files fn).map
              (fun g => if g.name = fn then (⟨g.name, some content⟩ : NoteFile) else g) :=
          findFile_map_upd files fn content fn
        unfold findFile
        rw [hmap, hf]
        simp

theorem wicf_preserves (files files2 : List NoteFile) (fn content fn2 : String)
    (h : writeIfChangedFiles files fn content = .ok files2)
    (hex : (findFile files fn2).isSome = true) :
    (findFile files2 fn2).isSome = true := by
  unfold writeIfChangedFiles at h
  cases hf : findFile files fn with
  | none =>
    rw [hf] at h
    dsimp only at h
    by_cases hc : "" = content
    · rw [if_pos hc] at h; cases h; exact hex
    · rw [if_neg hc] at h
      cases h
      unfold findFile at hex ⊢
      rw [List.find?_append]
      cases hfo : List.find? (fun f => f.name == fn2) files with
      | none => rw [hfo] at hex; simp at hex
      | some g => rfl
  | some f =>
    rw [hf] at h
    dsimp only at h
    cases hcf : f.content with
    | none => rw [hcf] at h; dsimp only at h; simp at h
    | some old =>
      rw [hcf] at h
      dsimp only at h
      by_cases he : old = content
      · rw [if_pos he] at h; cases h; exact hex
      · rw [if_neg he] at h
        cases h
        have hmap : List.find? (fun g => g.name == fn2)
            (files.map (fun g => if g.name = fn then (⟨g.name, some content⟩ : NoteFile) else g)) =
            (findFile files fn2).map
              (fun g => if g.name = fn then (⟨g.name, some content⟩ : NoteFile) else g) :=
          findFile_map_upd files fn content fn2
        unfold findFile
        rw [hmap]
        cases hfo : findFile files fn2 with
        | none => rw [hfo] at hex; simp at hex
        | some g => rfl

theorem findDir_map_upd (l : List NotesDir) (dn : String) (files : List NoteFile)
    (other : String) :
    List.find? (fun d => d.name == other)
        (l.map (fun d2 => if d2.name = dn then { d2 with files := files } else d2)) =
      (List.find? (fun d => d.name == other) l).map
        (fun d2 => if d2.name = dn then { d2 with files := files } else d2) := by
  induction l with
  | nil => rfl
  | cons g gs ih =>
    have hname : (if g.name = dn then ({ g with files := files } : NotesDir) else g).name
        = g.name := by
      by_cases hg : g.name = dn <;> simp [hg]
    by_cases ho : (g.name == other) = true
    · simp [List.find?_cons, hname, ho]
    · simp only [List.map_cons, List.find?_cons, hname, ho] at *
      simpa [Bool.false_eq_true, if_false] using ih

theorem writeDir_exists (fs fs2 : Fs) (dn content : String)
    (h : writeDirIfChanged fs dn "index.md" content = .ok fs2) (hc : content ≠ "") :
    hasFileIn fs2 dn "index.md" = true := by
  unfold writeDirIfChanged at h
  cases hd : findDir fs dn with
  | none => rw [hd] at h; simp at h
  | some d =>
    rw [hd] at h
    dsimp only at h
    cases hw : writeIfChangedFiles d.files "index.md" content with
    | error e => rw [hw] at h; simp at h
    | ok files2 =>
      rw [hw] at h
      dsimp only at h
      cases h
      unfold hasFileIn dirFilesOf findDir
      rw [findDir_map_upd fs.notesDirs dn files2 dn]
      have hd2 : List.find? (fun d2 => d2.name == dn) fs.notesDirs = some d := hd
      rw [hd2]
      have hdn : d.name = dn := by simpa using List.find?_some hd2
      simp only [Option.map_some']
      rw [if_pos hdn]
      exact wicf_ok_exists d.files files2 "index.md" content hw hc

theorem writeDir_preserves (fs fs2 : Fs) (dn fn content dn2 fn2 : String)
    (h : writeDirIfChanged fs dn fn content = .ok fs2)
    (hex : hasFileIn fs dn2 fn2 = true) :
    hasFileIn fs2 dn2 fn2 = true := by
  unfold writeDirIfChanged at h
  cases hd : findDir fs dn with
  | none => rw [hd] at h; simp at h
  | some d =>
    rw [hd] at h
    dsimp only at h
    cases hw : writeIfChangedFiles d.files fn content with
    | error e => rw [hw] at h; simp at h
    | ok files2 =>
      rw [hw] at h
      dsimp only at h
      cases h
      unfold hasFileIn dirFilesOf findDir at hex ⊢
      rw [findDir_map_upd fs.notesDirs dn files2 dn2]
      cases hd2 : List.find? (fun d2 => d2.name == dn2) fs.notesDirs with
      | none => rw [hd2] at hex; simp [findFile] at hex
      | some d2 =>
        rw [hd2] at hex
        try dsimp only at hex
        simp only [Option.map_some']
        by_cases hname : d2.name = dn
        · rw [if_pos hname]
          have hd2n : d2.name = dn2 := by simpa using List.find?_some hd2
          have heq : dn2 = dn := by rw [← hd2n, hname]
          subst heq
          have hd' : List.find? (fun d2 => d2.name == dn2) fs.notesDirs = some d := hd
          rw [hd'] at hd2
          cases hd2
          exact wicf_preserves d.files files2 fn content fn2 hw hex
        · rw [if_neg hname]
          exact hex

theorem uci_preserves : ∀ (cs : List Category) (fs fs2 : Fs),
    update_category_indexes fs cs = .ok fs2 →
    ∀ dn fn : String, hasFileIn fs dn fn = true → hasFileIn fs2 dn fn = true := by
  intro cs
  induction cs with
  | nil =>
    intro fs fs2 h dn fn hex
    simp only [update_category_indexes] at h
    cases h
    exact hex
  | cons c cs ih =>
    intro fs fs2 h dn fn hex
    simp only [update_category_indexes] at h
    cases hw : writeDirIfChanged fs c.dirName "index.md" (build_category_index fs c) with
    | error e => rw [hw] at h; simp at h
    | ok fs1 =>
      rw [hw] at h
      exact ih fs1 fs2 h dn fn
        (writeDir_preserves fs fs1 c.dirName "index.md" _ dn fn hw hex)

theorem uci_creates : ∀ (cs : List Category) (fs fs2 : Fs),
    update_category_indexes fs cs = .ok fs2 →
    ∀ c ∈ cs, hasFileIn fs2 c.dirName "index.md" = true := by
  intro cs
  induction cs with
  | nil =>
    intro fs fs2 h c hc
    simp at hc
  | cons c0 cs ih =>
    intro fs fs2 h c hc
    simp only [update_category_indexes] at h
    cases hw : writeDirIfChanged fs c0.dirName "index.md" (build_category_index fs c0) with
    | error e => rw [hw] at h; simp at h
    | ok fs1 =>
      rw [hw] at h
      rcases List.mem_cons.mp hc with hc0 | hcs
      · subst hc0
        exact uci_preserves cs fs1 fs2 h c.dirName "index.md"
          (writeDir_exists fs fs1 c.dirName _ hw (build_category_index_ne_empty fs c))
      · exact ih fs1 fs2 h c hcs

/-- C10: after a successful run every aggregated category's directory
    contains an `index.md` — the per-category renderer always produces
    non-empty content, and the sync writer treats an absent file as the
    empty string and therefore creates it. -/
theorem c10_run_creates_category_indexes (po : ParseOutcome) (text : String)
    (fs fsOut : Fs) (cats : List Category)
    (hrun : runMain po text fs = .ok fsOut)
    (hg : gather_categories fs (extract_category_nav po text) = .ok cats) :
    ∀ c ∈ cats, hasFileIn fsOut c.dirName "index.md" = true := by
  unfold runMain at hrun
  rw [hg] at hrun
  dsimp only at hrun
  cases hw1 : writeRootIfChanged fs "index.md" (render_index (build_category_entries cats)) with
  | error e => rw [hw1] at hrun; simp at hrun
  | ok fs1 =>
    rw [hw1] at hrun
    dsimp only at hrun
    cases hw2 : writeRootIfChanged fs1 "all-notes.md" (render_all_notes fs cats) with
    | error e => rw [hw2] at hrun; simp at hrun
    | ok fs2 =>
      rw [hw2] at hrun
      exact uci_creates cats fs2 fsOut hrun

def c10Fs : Fs := ⟨[⟨"x", []⟩], []⟩

def c10Text : String := "- 分类:\n  - T: x/index.md"

def c10Out : Fs := ((runMain .unavailable c10Text c10Fs).toOption).getD ⟨[], []⟩

def c10Cats : List Category :=
  ((gather_categories c10Fs (extract_category_nav .unavailable c10Text)).toOption).getD []

/-- Witness for C10: the declared directory `x` has no `index.md` before
    the run and contains one afterwards. -/
theorem c10_run_creates_category_indexes_witness :
    hasFileIn c10Out "x" "index.md" = true :=
  c10_run_creates_category_indexes .unavailable c10Text c10Fs c10Out c10Cats rfl rfl
    ⟨"T", "x", "x/index.md"⟩ (by decide)

def c1Fs : Fs := ⟨[⟨"cat", [⟨"index.md", some "# a*b\n"⟩]⟩], []⟩

def c1Run1 : Fs := ((runMain .unavailable "" c1Fs).toOption).getD ⟨[], []⟩

def c1Run2 : Fs := ((runMain .unavailable "" c1Run1).toOption).getD ⟨[], []⟩

/-- C1: the process is not idempotent when an auto-discovered category's
    title carries a Markdown-escaped character.  The first run derives the
    title `a*b` from the H1 of `cat/index.md`, writes the escaped H1
    `# a\*b`; the second run reads the title back as `a\*b`, escapes it
    again, and rewrites the category index (and the landing index), so the
    second run's write-if-changed comparisons find changed content. -/
theorem c1_second_run_rewrites :
    read_category_title ⟨"cat", [⟨"index.md", some "# a*b\n"⟩]⟩ = .ok "a*b" ∧
    runMain .unavailable "" c1Fs = .ok c1Run1 ∧
    runMain .unavailable "" c1Run1 = .ok c1Run2 ∧
    c1Run2 ≠ c1Run1 ∧
    oldContentOf (dirFilesOf c1Run1 "cat") "index.md" ≠
      oldContentOf (dirFilesOf c1Run2 "cat") "index.md" := by
  refine ⟨rfl, rfl, rfl, by decide, by decide⟩
